import Mathlib

/-!
Shallow embedding of the wrtcli backup/restore engine (src/models.rs,
src/config.rs, src/commands.rs, src/main.rs) and proofs of the spec's
claims about it.

Conventions of the embedding:
* Rust `String` stays `String`; raw byte buffers (`Vec<u8>`) become
  `List Nat` (each element a byte value).
* The per-device backup directory is a `DeviceStore`: an association list
  from filenames to file contents, plus the parsed contents of
  `metadata.json` (`none` when the file does not exist).
* Fallible filesystem operations are modelled with explicit success
  flags (`renameOk`, `saveOk`, `fsOk`) standing for the outcome of the
  corresponding `std::fs` call; a call that the source propagates with
  `?` becomes an `Except`/`Option` short-circuit in the model.
* Network traffic is modelled as the list of requests a run would issue,
  in order, with oracles supplying the tokens the device would return.
-/

namespace Wrtcli

/-! ## models.rs -/

/-- `BackupInfo` from src/models.rs. `created_at` (a chrono timestamp in
the source) is carried as its formatted representation, the same value
the id is derived from. -/
structure BackupInfo where
  id : String
  filename : String
  created_at : String
  device_name : String
  description : Option String
  backup_type : String
  backup_method : String
  size : Nat
deriving DecidableEq, Repr

/-- `BackupMeta` from src/models.rs: the persisted catalog, a `Vec` of
records in creation order. -/
structure BackupMeta where
  backups : List BackupInfo
deriving DecidableEq, Repr

/-- `BackupMeta::new`. -/
def BackupMeta.new : BackupMeta := ⟨[]⟩

/-- `BackupMeta::add_backup`: `self.backups.push(backup)` appends at the
end. -/
def BackupMeta.add_backup (m : BackupMeta) (backup : BackupInfo) : BackupMeta :=
  ⟨m.backups ++ [backup]⟩

/-- `BackupMeta::get_backup`: first record whose id matches. -/
def BackupMeta.get_backup (m : BackupMeta) (id : String) : Option BackupInfo :=
  m.backups.find? (fun b => b.id == id)

/-- `BackupMeta::remove_backup`: remove the record at the first matching
position, returning whether anything was removed. -/
def BackupMeta.remove_backup (m : BackupMeta) (id : String) : Bool × BackupMeta :=
  match m.backups.findIdx? (fun b => b.id == id) with
  | some pos => (true, ⟨m.backups.eraseIdx pos⟩)
  | none => (false, m)

/-- `Device` from src/models.rs. -/
structure Device where
  name : String
  ip : String
  user : String
  password : String
deriving DecidableEq, Repr

/-- `Device::ubus_url`. -/
def Device.ubus_url (d : Device) : String := "http://" ++ d.ip ++ "/ubus"

/-- `Device::luci_url`. -/
def Device.luci_url (d : Device) : String := "http://" ++ d.ip

/-! ## Filesystem model -/

/-- Contents of one directory: filename to file bytes, first binding
wins. -/
def FSFiles := List (String × List Nat)

instance : DecidableEq FSFiles := by
  unfold FSFiles
  infer_instance

/-- Whether a file with the given name exists. -/
def hasFile (fs : FSFiles) (p : String) : Bool :=
  fs.any (fun e => e.1 == p)

/-- Read a file's bytes (`fs::read`). -/
def readFile (fs : FSFiles) (p : String) : Option (List Nat) :=
  (fs.find? (fun e => e.1 == p)).map (fun e => e.2)

/-- Create or overwrite a file (the destination side of `fs::rename`,
and `File::create` + `write_all`). -/
def setFile (fs : FSFiles) (p : String) (data : List Nat) : FSFiles :=
  (p, data) :: fs.filter (fun e => e.1 != p)

/-- `fs::remove_file`. `fsOk` stands for the filesystem accepting the
call; a missing file also fails. -/
def fsRemoveFile (fsOk : Bool) (fs : FSFiles) (p : String) : Option FSFiles :=
  if fsOk && hasFile fs p then some (fs.filter (fun e => e.1 != p)) else none

/-- The backup directory of one device together with its
`metadata.json` (`none` when the file does not exist; when present, it
holds the parsed catalog). -/
structure DeviceStore where
  files : FSFiles
  metaFile : Option BackupMeta
deriving DecidableEq

/-! ## config.rs: ConfigManager, scoped to one device -/

namespace ConfigManager

/-- The catalog `load_backup_meta` would parse from the store. -/
def loadedMeta (st : DeviceStore) : BackupMeta :=
  match st.metaFile with
  | none => BackupMeta.new
  | some m => m

/-- `ConfigManager::load_backup_meta`: an absent `metadata.json` yields
`Ok(BackupMeta::new())`; a present one parses to its contents. -/
def load_backup_meta (st : DeviceStore) : Except String BackupMeta :=
  match st.metaFile with
  | none => .ok BackupMeta.new
  | some m => .ok m

/-- `ConfigManager::save_backup_meta`: rewrite `metadata.json`
wholesale; `saveOk` is the outcome of `File::create` + `write_all`. -/
def save_backup_meta (st : DeviceStore) (m : BackupMeta) (saveOk : Bool) :
    Except String DeviceStore :=
  if saveOk then .ok { st with metaFile := some m }
  else .error "Failed to write backup metadata file"

/-- Destination filename built in `ConfigManager::add_backup`. -/
def backupFilename (id : String) : String := id ++ "_full_backup.tar.gz"

/-- The externally visible steps of `add_backup`, in source order. -/
inductive CatalogEvent where
  | moveFile
  | appendRecord
  | persistCatalog
deriving DecidableEq, Repr

/-- Result of a run of `add_backup`: the completed steps (each paired
with the on-disk state right after it) and the final outcome. -/
structure AddOutcome where
  trace : List (CatalogEvent × DeviceStore)
  result : Except String (DeviceStore × BackupInfo)

/-- `ConfigManager::add_backup`. `temp` is the temporary archive file
(`none` when `fs::metadata` on it fails), `now` the formatted current
timestamp, `renameOk`/`saveOk` the outcomes of `fs::rename` and of
persisting the catalog. Mirrors the source order: build the record
(sizing the temp file), move the file, append in memory, persist. -/
def add_backup (st : DeviceStore) (temp : Option (List Nat)) (now device_name : String)
    (description : Option String) (backup_method : String) (renameOk saveOk : Bool) :
    AddOutcome :=
  match load_backup_meta st with
  | .error e => ⟨[], .error e⟩
  | .ok meta =>
    let id := now
    let filename := backupFilename id
    match temp with
    | none => .mk [] (.error "failed to stat temporary backup file")
    | some data =>
      let backup_info : BackupInfo :=
        ⟨id, filename, now, device_name, description, "full", backup_method, data.length⟩
      if renameOk then
        let st1 : DeviceStore := { st with files := setFile st.files filename data }
        let meta1 := meta.add_backup backup_info
        match save_backup_meta st1 meta1 saveOk with
        | .ok st2 =>
          ⟨[(.moveFile, st1), (.appendRecord, st1), (.persistCatalog, st2)],
            .ok (st2, backup_info)⟩
        | .error e => ⟨[(.moveFile, st1), (.appendRecord, st1)], .error e⟩
      else .mk [] (.error "failed to move backup file")

/-- `ConfigManager::remove_backup_file`: look the record up, delete the
backing file, drop the record, persist; any failure aborts the rest. -/
def remove_backup_file (st : DeviceStore) (device_name backup_id : String)
    (fsOk saveOk : Bool) : DeviceStore × Except String Unit :=
  match load_backup_meta st with
  | .error e => (st, .error e)
  | .ok meta =>
    match meta.get_backup backup_id with
    | some backup =>
      match fsRemoveFile fsOk st.files backup.filename with
      | none => (st, .error "Failed to remove backup file")
      | some files1 =>
        let meta1 := (meta.remove_backup backup_id).2
        match save_backup_meta { st with files := files1 } meta1 saveOk with
        | .ok st2 => (st2, .ok ())
        | .error e => ({ st with files := files1 }, .error e)
    | none => (st, .error ("Backup not found for device " ++ device_name))

end ConfigManager

/-- Records of the persisted catalog of a store. -/
def persistedBackups (st : DeviceStore) : List BackupInfo :=
  (ConfigManager.loadedMeta st).backups

/-- The catalog/filesystem invariant of the spec: every persisted record
has its backing file in the device directory. -/
def catalogFilesOk (st : DeviceStore) : Bool :=
  (persistedBackups st).all (fun b => hasFile st.files b.filename)

/-- Whether an `Except` run succeeded. -/
def exceptOk {ε α : Type} : Except ε α → Bool
  | .ok _ => true
  | .error _ => false

/-! ## commands.rs: protocol-A (ubus/SSH) collection -/

namespace commands

/-- Result of one remote command over the SSH channel: exit status and
captured stdout (read into a Rust `String`). -/
structure ExecResult where
  exit_status : Int
  output : String
deriving DecidableEq, Repr

/-- One entry appended to the tar archive: name, mode, declared size,
content bytes (`content.as_bytes()`, kept as the string). -/
structure TarEntry where
  path : String
  mode : Nat
  size : Nat
  content : String
deriving DecidableEq, Repr

/-- The fixed section list of `create_backup` (ubus branch). -/
def config_files : List String :=
  ["system", "wireless", "network", "dhcp", "firewall"]

/-- The shell command issued for one configuration section. -/
def sectionCommand (name : String) : String := "cat /etc/config/" ++ name

/-- The archive entry one section contributes, if its command exits zero
with non-empty output. -/
def sectionEntry (exec : String → ExecResult) (name : String) : Option TarEntry :=
  let r := exec (sectionCommand name)
  if r.exit_status == 0 && r.output != "" then
    some ⟨"etc/config/" ++ name, 0o644, r.output.utf8ByteSize, r.output⟩
  else none

/-- The section loop of the ubus branch of `create_backup`: for each
section (with its channel index), open a channel (`channel_session`,
whose success the oracle reports); on success issue the section's
command, then append an entry only when the command exits zero with
non-empty output. Returns the commands issued and the entries appended,
in order. -/
def runSections (channel_session : Nat → Bool) (exec : String → ExecResult) :
    List String → Nat → List String × List TarEntry
  | [], _ => ([], [])
  | name :: rest, i =>
    let (cs, es) := runSections channel_session exec rest (i + 1)
    if channel_session i then
      let cmd := sectionCommand name
      let r := exec cmd
      (cmd :: cs,
        if r.exit_status == 0 && r.output != "" then
          ⟨"etc/config/" ++ name, 0o644, r.output.utf8ByteSize, r.output⟩ :: es
        else es)
    else (cs, es)

/-- Outcome of the ubus collection: commands issued, archive entries,
and whether `archive.finish()` was reached. -/
structure UbusRun where
  commands : List String
  entries : List TarEntry
  finished : Bool
deriving DecidableEq, Repr

/-- The board.json step after the section loop: channel index 5, entry
name `system_info.json`. -/
def boardEntry (exec : String → ExecResult) : Option TarEntry :=
  let r := exec "cat /etc/board.json"
  if r.exit_status == 0 && r.output != "" then
    some ⟨"system_info.json", 0o644, r.output.utf8ByteSize, r.output⟩
  else none

/-- The whole collection phase of the ubus branch of `create_backup`:
the five fixed sections, then the board.json read, then
`archive.finish()`. No step of it errors out on a failed section. -/
def create_backup_ubus (channel_session : Nat → Bool) (exec : String → ExecResult) :
    UbusRun :=
  let (cs, es) := runSections channel_session exec config_files 0
  let (cs2, es2) :=
    if channel_session 5 then
      let cmd := "cat /etc/board.json"
      let r := exec cmd
      (cs ++ [cmd],
        if r.exit_status == 0 && r.output != "" then
          es ++ [⟨"system_info.json", 0o644, r.output.utf8ByteSize, r.output⟩]
        else es)
    else (cs, es)
  ⟨cs2, es2, true⟩

/-! ## commands.rs: network requests of restore_backup -/

/-- Argument object of a ubus JSON-RPC call. -/
inductive RpcArgs where
  | login (username password : String)
  | restoreArchive (backup : List Nat)
  | empty
deriving DecidableEq, Repr

/-- One HTTP request the tool can issue. -/
inductive NetRequest where
  | rpcCall (url session obj method : String) (args : RpcArgs)
  | luciFormPost (url username password : String)
  | luciGet (url cookie : String)
  | luciMultipartPost (url cookie part : String) (bytes : List Nat)
  | luciPost (url cookie : String)
deriving DecidableEq, Repr

/-- The fixed anonymous ubus session id. -/
def anonSession : String := "00000000000000000000000000000000"

/-- `commands::list_backups`: the records printed, in iteration order of
the loaded catalog. -/
def list_backups (meta : BackupMeta) : List BackupInfo := meta.backups

/-- Whether a request is a ubus JSON-RPC call. -/
def NetRequest.isRpc : NetRequest → Bool
  | .rpcCall .. => true
  | _ => false

/-- Whether a request asks the device to reboot. -/
def NetRequest.isReboot : NetRequest → Bool
  | .rpcCall _ _ _ method _ => method == "reboot"
  | .luciPost url _ => url.endsWith "/admin/system/reboot"
  | _ => false

/-- `commands::restore_backup` after the device lookup: find the record,
read its backing file, then branch on the protocol. `rpcToken` and
`luciToken` are the session tokens the device's auth responses carry
(`none` when absent/malformed). Returns the requests issued, in order,
and the outcome. -/
def restore_backup (st : DeviceStore) (device : Device) (backup_id : String)
    (use_ubus : Bool) (rpcToken luciToken : Option String) :
    List NetRequest × Except String Unit :=
  match (ConfigManager.loadedMeta st).get_backup backup_id with
  | none => ([], .error ("Backup not found: " ++ backup_id))
  | some backup =>
    match readFile st.files backup.filename with
    | none => ([], .error "failed to read backup file")
    | some backup_data =>
      if use_ubus then
        let login := NetRequest.rpcCall device.ubus_url anonSession "session" "login"
          (.login device.user device.password)
        match rpcToken with
        | none => ([login], .error "Failed to get session token")
        | some session =>
          ([login,
            .rpcCall device.ubus_url session "system" "restore" (.restoreArchive backup_data)],
            .ok ())
      else
        let auth := NetRequest.luciFormPost (device.luci_url ++ "/cgi-bin/luci/rpc/auth")
          device.user device.password
        match luciToken with
        | none => ([auth], .error "Failed to get LuCI session token")
        | some session =>
          ([auth,
            .luciMultipartPost (device.luci_url ++ "/cgi-bin/luci/admin/system/flashops/restore")
              ("sysauth=" ++ session) "archive" backup_data,
            .luciPost (device.luci_url ++ "/cgi-bin/luci/admin/system/reboot")
              ("sysauth=" ++ session)],
            .ok ())

end commands

/-! ## commands.rs: LuCI (protocol-B) backup path

The LuCI branch of `create_backup` receives the HTTP response and calls
`response.text()` — which decodes the body as UTF-8, substituting
U+FFFD for invalid sequences (the WHATWG decoder reqwest uses) — and
then `into_bytes()` re-encodes the decoded string before writing it to
the temporary archive file. The composition of the two is modelled
byte-for-byte here. -/

/-- Whether a byte is a UTF-8 continuation byte. -/
def isCont (b : Nat) : Bool := 0x80 ≤ b && b ≤ 0xBF

/-- Lower bound for the second byte of a three-byte sequence. -/
def cont3Lo (b1 : Nat) : Nat := if b1 == 0xE0 then 0xA0 else 0x80

/-- Upper bound for the second byte of a three-byte sequence. -/
def cont3Hi (b1 : Nat) : Nat := if b1 == 0xED then 0x9F else 0xBF

/-- Lower bound for the second byte of a four-byte sequence. -/
def cont4Lo (b1 : Nat) : Nat := if b1 == 0xF0 then 0x90 else 0x80

/-- Upper bound for the second byte of a four-byte sequence. -/
def cont4Hi (b1 : Nat) : Nat := if b1 == 0xF4 then 0x8F else 0xBF

/-- One step of UTF-8 decoding with replacement: given a leading byte
and the bytes after it, the decoded scalar (U+FFFD for a malformed
maximal subpart) and the bytes not yet consumed. -/
def utf8Step (b1 : Nat) (rest : List Nat) : Nat × List Nat :=
  if b1 ≤ 0x7F then (b1, rest)
  else if 0xC2 ≤ b1 && b1 ≤ 0xDF then
    match rest with
    | [] => (0xFFFD, [])
    | b2 :: rest2 =>
      if isCont b2 then ((b1 - 0xC0) * 0x40 + (b2 - 0x80), rest2)
      else (0xFFFD, b2 :: rest2)
  else if 0xE0 ≤ b1 && b1 ≤ 0xEF then
    match rest with
    | [] => (0xFFFD, [])
    | b2 :: rest2 =>
      if cont3Lo b1 ≤ b2 && b2 ≤ cont3Hi b1 then
        match rest2 with
        | [] => (0xFFFD, [])
        | b3 :: rest3 =>
          if isCont b3 then
            (((b1 - 0xE0) * 0x40 + (b2 - 0x80)) * 0x40 + (b3 - 0x80), rest3)
          else (0xFFFD, b3 :: rest3)
      else (0xFFFD, b2 :: rest2)
  else if 0xF0 ≤ b1 && b1 ≤ 0xF4 then
    match rest with
    | [] => (0xFFFD, [])
    | b2 :: rest2 =>
      if cont4Lo b1 ≤ b2 && b2 ≤ cont4Hi b1 then
        match rest2 with
        | [] => (0xFFFD, [])
        | b3 :: rest3 =>
          if isCont b3 then
            match rest3 with
            | [] => (0xFFFD, [])
            | b4 :: rest4 =>
              if isCont b4 then
                ((((b1 - 0xF0) * 0x40 + (b2 - 0x80)) * 0x40 + (b3 - 0x80)) * 0x40 +
                    (b4 - 0x80), rest4)
              else (0xFFFD, b4 :: rest4)
          else (0xFFFD, b3 :: rest3)
      else (0xFFFD, b2 :: rest2)
  else (0xFFFD, rest)

/-- Fuelled decoding loop: every step consumes at least the leading
byte (`utf8Step` never returns more than the tail it was given), so
fuel equal to the input length never runs out. -/
def utf8LossyDecodeAux : Nat → List Nat → List Nat
  | _, [] => []
  | 0, _ :: _ => []
  | fuel + 1, b1 :: rest =>
    (utf8Step b1 rest).1 :: utf8LossyDecodeAux fuel (utf8Step b1 rest).2

/-- UTF-8 decoding with replacement (scalar values out): each malformed
maximal subpart becomes one U+FFFD, as in the WHATWG decoder backing
`Response::text()`. -/
def utf8LossyDecode (l : List Nat) : List Nat :=
  utf8LossyDecodeAux l.length l

/-- UTF-8 encoding of one scalar value. -/
def utf8EncodeChar (c : Nat) : List Nat :=
  if c ≤ 0x7F then [c]
  else if c ≤ 0x7FF then [0xC0 + c / 0x40, 0x80 + c % 0x40]
  else if c ≤ 0xFFFF then
    [0xE0 + c / 0x1000, 0x80 + (c / 0x40) % 0x40, 0x80 + c % 0x40]
  else
    [0xF0 + c / 0x40000, 0x80 + (c / 0x1000) % 0x40, 0x80 + (c / 0x40) % 0x40,
      0x80 + c % 0x40]

/-- UTF-8 encoding of a scalar sequence (`String::into_bytes`). -/
def utf8Encode (cs : List Nat) : List Nat :=
  (cs.map utf8EncodeChar).flatten

namespace commands

/-- The bytes the LuCI branch of `create_backup` writes to the temporary
archive file when the HTTP backup response body is `body`:
`response.text().await?.into_bytes()`. -/
def luci_backup_content (body : List Nat) : List Nat :=
  utf8Encode (utf8LossyDecode body)

/-- The LuCI branch of `create_backup` after the device lookup:
authenticate, GET the backup endpoint (whose response body is `body`),
write the (re-encoded) content to the temp file, then
`ConfigManager::add_backup` with method "luci". Returns the requests
issued and the catalog outcome. -/
def create_backup_luci (st : DeviceStore) (device : Device) (now : String)
    (description : Option String) (luciToken : Option String) (body : List Nat) :
    List NetRequest × ConfigManager.AddOutcome :=
  let auth := NetRequest.luciFormPost (device.luci_url ++ "/cgi-bin/luci/rpc/auth")
    device.user device.password
  match luciToken with
  | none => ([auth], ⟨[], .error "Failed to get LuCI session token"⟩)
  | some session =>
    let get := NetRequest.luciGet
      (device.luci_url ++ "/cgi-bin/luci/admin/system/flashops/backup")
      ("sysauth=" ++ session)
    let content := luci_backup_content body
    ([auth, get],
      ConfigManager.add_backup st (some content) now device.name description "luci"
        true true)

end commands

/-! ## main.rs: the CLI surface -/

/-- The `BackupCommands` subcommand enum of src/main.rs (`Show` is
renamed: `show` is reserved in Lean). -/
inductive BackupCommands where
  | create (name : String) (description : Option String)
  | list (name : String)
  | showCmd (name backup_id : String)
  | restore (name backup_id : String)
  | remove (name backup_id : String)
deriving DecidableEq, Repr

/-- The call into src/commands.rs a backup subcommand dispatches to,
with the arguments `main` passes. -/
inductive CliCall where
  | create_backup (name : String) (description : Option String) (use_ubus : Bool)
  | list_backups (name : String)
  | show_backup (name backup_id : String)
  | restore_backup (name backup_id : String) (use_ubus : Bool)
  | remove_backup (name backup_id : String)
deriving DecidableEq, Repr

/-- The `Commands::Backup` arm of the `match` in `main`. -/
def dispatch_backup : BackupCommands → CliCall
  | .create name description => .create_backup name description false
  | .list name => .list_backups name
  | .showCmd name backup_id => .show_backup name backup_id
  | .restore name backup_id => .restore_backup name backup_id false
  | .remove name backup_id => .remove_backup name backup_id

/-- The `use_ubus` flag a dispatched call carries, when it has one. -/
def CliCall.usesProtocolA : CliCall → Bool
  | .create_backup _ _ use_ubus => use_ubus
  | .restore_backup _ _ use_ubus => use_ubus
  | _ => false

/-! ## Helper lemmas -/

/-- `load_backup_meta` always succeeds and returns the parsed (or fresh)
catalog. -/
theorem load_backup_meta_eq (st : DeviceStore) :
    ConfigManager.load_backup_meta st = .ok (ConfigManager.loadedMeta st) := by
  cases h : st.metaFile <;>
    simp [ConfigManager.load_backup_meta, ConfigManager.loadedMeta, h]

/-- A file just written is present. -/
theorem hasFile_setFile_self (fs : FSFiles) (p : String) (d : List Nat) :
    hasFile (setFile fs p d) p = true := by
  simp [hasFile, setFile]

/-- Writing one file keeps every present file present. -/
theorem hasFile_setFile_mono (fs : FSFiles) (p q : String) (d : List Nat)
    (h : hasFile fs q = true) : hasFile (setFile fs p d) q = true := by
  simp only [hasFile, setFile, List.any_cons, List.any_eq_true, Bool.or_eq_true] at h ⊢
  obtain ⟨e, he, hq⟩ := h
  by_cases hp : e.1 = p
  · exact Or.inl (by rw [← hp]; exact hq)
  · refine Or.inr ⟨e, List.mem_filter.mpr ⟨he, ?_⟩, hq⟩
    simp [hp]

/-- Removing all bindings of a name removes the file. -/
theorem hasFile_removeAll (fs : FSFiles) (p : String) :
    hasFile (fs.filter (fun e => e.1 != p)) p = false := by
  simp only [hasFile]
  rw [List.any_eq_false]
  intro e he
  have hne := (List.mem_filter.mp he).2
  simp only [bne_iff_ne, ne_eq] at hne
  simp [hne]

/-- `loadedMeta` of a store with a persisted catalog is that catalog. -/
theorem loadedMeta_mk_some (fs : FSFiles) (m : BackupMeta) :
    ConfigManager.loadedMeta ⟨fs, some m⟩ = m := rfl

/-- Folding `add_backup` appends the pushed records in order. -/
theorem foldl_add_backup (infos : List BackupInfo) :
    ∀ m : BackupMeta, (infos.foldl BackupMeta.add_backup m).backups = m.backups ++ infos := by
  induction infos with
  | nil => intro m; simp
  | cons b bs ih =>
    intro m
    simp [List.foldl_cons, ih, BackupMeta.add_backup]

/-! ## Claims -/

/-- C9: loading the backup catalog when no persisted metadata file
exists returns an empty catalog successfully. -/
theorem C9_load_missing_meta_is_empty_catalog (st : DeviceStore)
    (h : st.metaFile = none) :
    ConfigManager.load_backup_meta st = .ok BackupMeta.new ∧ BackupMeta.new.backups = [] := by
  refine ⟨?_, rfl⟩
  simp [ConfigManager.load_backup_meta, h]

/-- Witness for C9 at the store of a first use. -/
theorem C9_load_missing_meta_is_empty_catalog_witness :
    ConfigManager.load_backup_meta ⟨[], none⟩ = .ok BackupMeta.new ∧
      BackupMeta.new.backups = [] :=
  C9_load_missing_meta_is_empty_catalog ⟨[], none⟩ rfl

/-- C8: after N `add` calls starting from an empty catalog, `list`
returns exactly those N records in creation order, and each `add`
appends at the end without reordering. -/
theorem C8_list_after_adds (infos : List BackupInfo) :
    commands.list_backups (infos.foldl BackupMeta.add_backup BackupMeta.new) = infos ∧
      (commands.list_backups (infos.foldl BackupMeta.add_backup BackupMeta.new)).length =
        infos.length ∧
      ∀ (m : BackupMeta) (b : BackupInfo), (m.add_backup b).backups = m.backups ++ [b] := by
  have h : commands.list_backups (infos.foldl BackupMeta.add_backup BackupMeta.new) = infos := by
    simp [commands.list_backups, foldl_add_backup, BackupMeta.new]
  exact ⟨h, by rw [h], fun m b => rfl⟩

/-- C10: every backup create/restore reachable from the CLI runs with
`use_ubus = false`, and the protocol-A (RPC) requests are never issued
by the restore path the CLI selects. -/
theorem C10_cli_fixes_protocol_b :
    (∀ cmd : BackupCommands, (dispatch_backup cmd).usesProtocolA = false) ∧
      (∀ (st : DeviceStore) (dev : Device) (backup_id : String)
          (rpcToken luciToken : Option String),
        ((commands.restore_backup st dev backup_id false rpcToken luciToken).1.all
          (fun r => !r.isRpc)) = true) := by
  constructor
  · intro cmd
    cases cmd <;> rfl
  · intro st dev backup_id rpcToken luciToken
    cases h : (ConfigManager.loadedMeta st).get_backup backup_id with
    | none => simp [commands.restore_backup, h]
    | some b =>
      cases hf : readFile st.files b.filename with
      | none => simp [commands.restore_backup, h, hf]
      | some data =>
        cases luciToken with
        | none => simp [commands.restore_backup, h, hf, commands.NetRequest.isRpc]
        | some tok => simp [commands.restore_backup, h, hf, commands.NetRequest.isRpc]

/-- C1: the LuCI backup path does NOT store the HTTP response body
opaquely. Running the LuCI create path on a body that starts with the
gzip magic bytes 0x1F 0x8B (as every real archive the device returns
does) stores an archive file whose bytes differ from the response body:
`response.text()` decodes the body as UTF-8 with replacement and
`into_bytes()` re-encodes it, so the invalid byte 0x8B becomes the
three bytes 0xEF 0xBF 0xBD. -/
theorem C1_luci_backup_body_not_stored_opaquely :
    (commands.create_backup_luci ⟨[], none⟩ ⟨"router1", "10.0.0.1", "root", "pw"⟩
          "20240101_120000" none (some "token") [0x1F, 0x8B, 0x08, 0x00]).2.result.toOption.map
        (fun p => readFile p.1.files p.2.filename) =
      some (some [0x1F, 0xEF, 0xBF, 0xBD, 0x08, 0x00]) ∧
    [0x1F, 0xEF, 0xBF, 0xBD, 0x08, 0x00] ≠ [0x1F, 0x8B, 0x08, 0x00] := by
  constructor
  · rfl
  · decide

/-- C5: `restore_backup` branches on the protocol flag. Protocol A
issues the RPC login followed by a single RPC `restore` call carrying
the archive bytes and never a reboot request; protocol B issues the
auth form post, a multipart upload of the archive to the restore
endpoint, and then a separate authenticated post to the reboot
endpoint. -/
theorem C5_restore_protocol_branches (st : DeviceStore) (dev : Device)
    (backup_id rpcTok luciTok : String) (b : BackupInfo) (data : List Nat)
    (hb : (ConfigManager.loadedMeta st).get_backup backup_id = some b)
    (hf : readFile st.files b.filename = some data) :
    commands.restore_backup st dev backup_id true (some rpcTok) (some luciTok) =
      ([.rpcCall dev.ubus_url commands.anonSession "session" "login"
          (.login dev.user dev.password),
        .rpcCall dev.ubus_url rpcTok "system" "restore" (.restoreArchive data)],
        .ok ()) ∧
    (∀ r ∈ (commands.restore_backup st dev backup_id true (some rpcTok) (some luciTok)).1,
        r.isReboot = false) ∧
    commands.restore_backup st dev backup_id false (some rpcTok) (some luciTok) =
      ([.luciFormPost (dev.luci_url ++ "/cgi-bin/luci/rpc/auth") dev.user dev.password,
        .luciMultipartPost (dev.luci_url ++ "/cgi-bin/luci/admin/system/flashops/restore")
          ("sysauth=" ++ luciTok) "archive" data,
        .luciPost (dev.luci_url ++ "/cgi-bin/luci/admin/system/reboot")
          ("sysauth=" ++ luciTok)],
        .ok ()) := by
  have hA : commands.restore_backup st dev backup_id true (some rpcTok) (some luciTok) =
      ([.rpcCall dev.ubus_url commands.anonSession "session" "login"
          (.login dev.user dev.password),
        .rpcCall dev.ubus_url rpcTok "system" "restore" (.restoreArchive data)],
        .ok ()) := by
    simp [commands.restore_backup, hb, hf]
  refine ⟨hA, ?_, ?_⟩
  · rw [hA]
    intro r hr
    rcases List.mem_cons.mp hr with rfl | hr2
    · simp [commands.NetRequest.isReboot]
    rcases List.mem_cons.mp hr2 with rfl | hr3
    · simp [commands.NetRequest.isReboot]
    · simp at hr3
  · simp [commands.restore_backup, hb, hf]

/-- Witness for C5 at a concrete store, record, and device. -/
theorem C5_restore_protocol_branches_witness :
    commands.restore_backup
        ⟨[("20240101_120000_full_backup.tar.gz", [9, 8, 7])],
          some ⟨[⟨"20240101_120000", "20240101_120000_full_backup.tar.gz",
            "20240101_120000", "router1", none, "full", "luci", 3⟩]⟩⟩
        ⟨"router1", "10.0.0.1", "root", "pw"⟩ "20240101_120000" true
        (some "rpctok") (some "lucitok") =
      ([.rpcCall "http://10.0.0.1/ubus" commands.anonSession "session" "login"
          (.login "root" "pw"),
        .rpcCall "http://10.0.0.1/ubus" "rpctok" "system" "restore"
          (.restoreArchive [9, 8, 7])],
        .ok ()) := by
  have h := C5_restore_protocol_branches
    ⟨[("20240101_120000_full_backup.tar.gz", [9, 8, 7])],
      some ⟨[⟨"20240101_120000", "20240101_120000_full_backup.tar.gz",
        "20240101_120000", "router1", none, "full", "luci", 3⟩]⟩⟩
    ⟨"router1", "10.0.0.1", "root", "pw"⟩ "20240101_120000" "rpctok" "lucitok"
    ⟨"20240101_120000", "20240101_120000_full_backup.tar.gz",
      "20240101_120000", "router1", none, "full", "luci", 3⟩ [9, 8, 7]
    (by decide) (by decide)
  exact h.1

/-- C2: a successful `add_backup` moves the archive file first, then
appends the record to the in-memory catalog, then persists the catalog;
along the whole run, the persisted catalog never holds a record whose
backing file is absent. -/
theorem C2_add_backup_move_append_persist (st : DeviceStore) (temp : Option (List Nat))
    (now device_name : String) (description : Option String) (backup_method : String)
    (renameOk saveOk : Bool)
    (hinv : catalogFilesOk st = true)
    (hok : exceptOk (ConfigManager.add_backup st temp now device_name description
        backup_method renameOk saveOk).result = true) :
    (ConfigManager.add_backup st temp now device_name description backup_method
        renameOk saveOk).trace.map Prod.fst =
      [.moveFile, .appendRecord, .persistCatalog] ∧
    ∀ p ∈ (ConfigManager.add_backup st temp now device_name description backup_method
        renameOk saveOk).trace, catalogFilesOk p.2 = true := by
  cases temp with
  | none =>
    simp [ConfigManager.add_backup, load_backup_meta_eq, exceptOk] at hok
  | some data =>
    cases renameOk with
    | false =>
      simp [ConfigManager.add_backup, load_backup_meta_eq, exceptOk] at hok
    | true =>
      cases saveOk with
      | false =>
        simp [ConfigManager.add_backup, load_backup_meta_eq,
          ConfigManager.save_backup_meta, exceptOk] at hok
      | true =>
        have hst1 : catalogFilesOk
            { st with files := setFile st.files (ConfigManager.backupFilename now) data } =
            true := by
          simp only [catalogFilesOk, persistedBackups, List.all_eq_true] at hinv ⊢
          intro b hbmem
          exact hasFile_setFile_mono _ _ _ _ (hinv b hbmem)
        have hst2 : catalogFilesOk
            { files := setFile st.files (ConfigManager.backupFilename now) data,
              metaFile := some ((ConfigManager.loadedMeta st).add_backup
                ⟨now, ConfigManager.backupFilename now, now, device_name, description,
                  "full", backup_method, data.length⟩) } = true := by
          simp only [catalogFilesOk, persistedBackups, ConfigManager.loadedMeta,
            BackupMeta.add_backup, List.all_eq_true, List.mem_append,
            List.mem_singleton] at hst1 ⊢
          rintro b (hbmem | rfl)
          · exact hst1 b hbmem
          · exact hasFile_setFile_self _ _ _
        constructor
        · simp [ConfigManager.add_backup, load_backup_meta_eq,
            ConfigManager.save_backup_meta]
        · intro p hp
          simp only [ConfigManager.add_backup, load_backup_meta_eq,
            ConfigManager.save_backup_meta, if_true, List.mem_cons,
            List.not_mem_nil, or_false] at hp
          rcases hp with rfl | rfl | rfl
          · exact hst1
          · exact hst1
          · exact hst2

/-- Witness for C2 at a concrete successful run. -/
theorem C2_add_backup_move_append_persist_witness :
    (ConfigManager.add_backup ⟨[], none⟩ (some [1, 2, 3]) "20240101_120000" "router1"
        none "luci" true true).trace.map Prod.fst =
      [.moveFile, .appendRecord, .persistCatalog] ∧
    ∀ p ∈ (ConfigManager.add_backup ⟨[], none⟩ (some [1, 2, 3]) "20240101_120000"
        "router1" none "luci" true true).trace, catalogFilesOk p.2 = true :=
  C2_add_backup_move_append_persist ⟨[], none⟩ (some [1, 2, 3]) "20240101_120000"
    "router1" none "luci" true true (by decide) (by decide)

/-- C3: when deletion of the backing file fails, `remove_backup_file`
fails as a whole and the store — in particular the persisted catalog,
which still holds the record — is unchanged. -/
theorem C3_failed_delete_leaves_catalog_unchanged (st : DeviceStore)
    (device_name backup_id : String) (fsOk saveOk : Bool) (b : BackupInfo)
    (hb : (ConfigManager.loadedMeta st).get_backup backup_id = some b)
    (hfail : fsRemoveFile fsOk st.files b.filename = none) :
    ConfigManager.remove_backup_file st device_name backup_id fsOk saveOk =
      (st, .error "Failed to remove backup file") ∧
    (ConfigManager.loadedMeta
        (ConfigManager.remove_backup_file st device_name backup_id fsOk saveOk).1).get_backup
      backup_id = some b := by
  have h1 : ConfigManager.remove_backup_file st device_name backup_id fsOk saveOk =
      (st, .error "Failed to remove backup file") := by
    simp [ConfigManager.remove_backup_file, load_backup_meta_eq, hb, hfail]
  exact ⟨h1, by rw [h1]; exact hb⟩

/-- Witness for C3: the filesystem refuses the delete while the record
is catalogued. -/
theorem C3_failed_delete_leaves_catalog_unchanged_witness :
    ConfigManager.remove_backup_file
        ⟨[("20240101_120000_full_backup.tar.gz", [7])],
          some ⟨[⟨"20240101_120000", "20240101_120000_full_backup.tar.gz",
            "20240101_120000", "router1", none, "full", "luci", 1⟩]⟩⟩
        "router1" "20240101_120000" false true =
      (⟨[("20240101_120000_full_backup.tar.gz", [7])],
          some ⟨[⟨"20240101_120000", "20240101_120000_full_backup.tar.gz",
            "20240101_120000", "router1", none, "full", "luci", 1⟩]⟩⟩,
        .error "Failed to remove backup file") :=
  (C3_failed_delete_leaves_catalog_unchanged
    ⟨[("20240101_120000_full_backup.tar.gz", [7])],
      some ⟨[⟨"20240101_120000", "20240101_120000_full_backup.tar.gz",
        "20240101_120000", "router1", none, "full", "luci", 1⟩]⟩⟩
    "router1" "20240101_120000" false true
    ⟨"20240101_120000", "20240101_120000_full_backup.tar.gz",
      "20240101_120000", "router1", none, "full", "luci", 1⟩
    (by decide) (by decide)).1

/-- C6 (amended): when the generated id is not already present in the
catalog, `add` followed by `get` of that id returns the record created
by the add, with the id, filename and size recorded at creation. -/
theorem C6_add_then_get_returns_created_record (st : DeviceStore) (data : List Nat)
    (now device_name : String) (description : Option String) (backup_method : String)
    (hfresh : (ConfigManager.loadedMeta st).get_backup now = none) :
    ∀ st2 info,
      (ConfigManager.add_backup st (some data) now device_name description backup_method
          true true).result = .ok (st2, info) →
      info.id = now ∧ info.filename = ConfigManager.backupFilename now ∧
        info.size = data.length ∧
        (ConfigManager.loadedMeta st2).get_backup info.id = some info := by
  intro st2 info hres
  simp only [ConfigManager.add_backup, load_backup_meta_eq,
    ConfigManager.save_backup_meta, if_true] at hres
  rw [Except.ok.injEq, Prod.mk.injEq] at hres
  obtain ⟨hst2, hinfo⟩ := hres
  subst hst2
  subst hinfo
  refine ⟨rfl, rfl, rfl, ?_⟩
  simp only [BackupMeta.get_backup, BackupMeta.add_backup, loadedMeta_mk_some,
    List.find?_append]
  have hnone : ((ConfigManager.loadedMeta st).backups.find?
      (fun b => b.id == now)) = none := hfresh
  rw [hnone]
  simp

/-- Witness for C6 at a fresh catalog. -/
theorem C6_add_then_get_returns_created_record_witness :
    (⟨"20240101_120000", "20240101_120000_full_backup.tar.gz", "20240101_120000",
        "router1", none, "full", "luci", 2⟩ : BackupInfo).id = "20240101_120000" ∧
      (⟨"20240101_120000", "20240101_120000_full_backup.tar.gz", "20240101_120000",
        "router1", none, "full", "luci", 2⟩ : BackupInfo).filename =
        ConfigManager.backupFilename "20240101_120000" ∧
      (⟨"20240101_120000", "20240101_120000_full_backup.tar.gz", "20240101_120000",
        "router1", none, "full", "luci", 2⟩ : BackupInfo).size = [1, 2].length ∧
      (ConfigManager.loadedMeta
          ⟨[("20240101_120000_full_backup.tar.gz", [1, 2])],
            some ⟨[⟨"20240101_120000", "20240101_120000_full_backup.tar.gz",
              "20240101_120000", "router1", none, "full", "luci", 2⟩]⟩⟩).get_backup
        "20240101_120000" =
        some ⟨"20240101_120000", "20240101_120000_full_backup.tar.gz", "20240101_120000",
          "router1", none, "full", "luci", 2⟩ :=
  C6_add_then_get_returns_created_record ⟨[], none⟩ [1, 2] "20240101_120000" "router1"
    none "luci" (by decide)
    ⟨[("20240101_120000_full_backup.tar.gz", [1, 2])],
      some ⟨[⟨"20240101_120000", "20240101_120000_full_backup.tar.gz", "20240101_120000",
        "router1", none, "full", "luci", 2⟩]⟩⟩
    ⟨"20240101_120000", "20240101_120000_full_backup.tar.gz", "20240101_120000",
      "router1", none, "full", "luci", 2⟩ rfl

/-- C6 as stated is false: if the catalog already holds a record with
the generated id (two creations in the same second), the add succeeds
but `get` returns the earlier record, whose size (1) differs from the
size recorded at creation (2). -/
theorem C6_add_then_get_counterexample :
    exceptOk (ConfigManager.add_backup
        ⟨[("20240101_120000_full_backup.tar.gz", [5])],
          some ⟨[⟨"20240101_120000", "20240101_120000_full_backup.tar.gz",
            "20240101_120000", "router1", none, "full", "luci", 1⟩]⟩⟩
        (some [1, 2]) "20240101_120000" "router1" none "luci" true true).result = true ∧
    (ConfigManager.add_backup
        ⟨[("20240101_120000_full_backup.tar.gz", [5])],
          some ⟨[⟨"20240101_120000", "20240101_120000_full_backup.tar.gz",
            "20240101_120000", "router1", none, "full", "luci", 1⟩]⟩⟩
        (some [1, 2]) "20240101_120000" "router1" none "luci" true
        true).result.toOption.map (fun p => p.2.size) = some 2 ∧
    (ConfigManager.add_backup
        ⟨[("20240101_120000_full_backup.tar.gz", [5])],
          some ⟨[⟨"20240101_120000", "20240101_120000_full_backup.tar.gz",
            "20240101_120000", "router1", none, "full", "luci", 1⟩]⟩⟩
        (some [1, 2]) "20240101_120000" "router1" none "luci" true
        true).result.toOption.map
      (fun p => ((ConfigManager.loadedMeta p.1).get_backup "20240101_120000").map
        (fun r => r.size)) = some (some 1) ∧
    (1 : Nat) ≠ 2 := by
  refine ⟨rfl, rfl, rfl, by decide⟩

/-- A successful `find?` yields a `findIdx?` position. -/
theorem findIdx?_isSome_of_find? {α : Type} (p : α → Bool) :
    ∀ (l : List α) (b : α), l.find? p = some b → ∃ pos, l.findIdx? p = some pos := by
  intro l
  induction l with
  | nil => intro b h; simp at h
  | cons x xs ih =>
    intro b h
    by_cases hx : p x = true
    · exact ⟨0, by simp [List.findIdx?_cons, hx]⟩
    · rw [List.find?_cons_of_neg _ hx] at h
      obtain ⟨pos, hpos⟩ := ih b h
      refine ⟨pos + 1, ?_⟩
      rw [List.findIdx?_cons, if_neg hx, List.findIdx?_succ, hpos]
      rfl

/-- Erasing the first hit of a predicate that matches at most one
element leaves a list with no hit. -/
theorem find?_eraseIdx_of_unique {α : Type} (p : α → Bool) :
    ∀ (l : List α) (pos : Nat),
      (l.filter p).length ≤ 1 → l.findIdx? p = some pos →
      (l.eraseIdx pos).find? p = none := by
  intro l
  induction l with
  | nil => intro pos h hidx; simp [List.findIdx?] at hidx
  | cons x xs ih =>
    intro pos huniq hidx
    by_cases hx : p x = true
    · rw [List.findIdx?_cons, if_pos hx] at hidx
      obtain rfl : (0 : Nat) = pos := by simpa using hidx
      rw [List.eraseIdx_cons_zero, List.find?_eq_none]
      intro y hy hpy
      rw [List.filter_cons_of_pos hx] at huniq
      have hnil : xs.filter p = [] := by
        simp only [List.length_cons] at huniq
        exact List.length_eq_zero.mp (by omega)
      have : y ∈ xs.filter p := List.mem_filter.mpr ⟨hy, hpy⟩
      rw [hnil] at this
      simp at this
    · rw [List.findIdx?_cons, if_neg hx, List.findIdx?_succ] at hidx
      cases hfind : xs.findIdx? p with
      | none => rw [hfind] at hidx; simp at hidx
      | some q =>
        rw [hfind] at hidx
        obtain rfl : q + 1 = pos := by simpa using hidx
        rw [List.eraseIdx_cons_succ, List.find?_cons_of_neg _ hx]
        refine ih q ?_ hfind
        rwa [List.filter_cons_of_neg hx] at huniq

/-- C7 (amended): when the catalog holds exactly one record with the
given id and its backing file is present, `remove` succeeds, a
subsequent `get` of the id returns nothing, and the backing file is
gone from the device directory. -/
theorem C7_remove_then_get_none (st : DeviceStore) (device_name backup_id : String)
    (b : BackupInfo)
    (hb : (ConfigManager.loadedMeta st).get_backup backup_id = some b)
    (huniq : ((ConfigManager.loadedMeta st).backups.filter
        (fun r => r.id == backup_id)).length ≤ 1)
    (hfile : hasFile st.files b.filename = true) :
    exceptOk (ConfigManager.remove_backup_file st device_name backup_id true true).2 =
      true ∧
    (ConfigManager.loadedMeta
        (ConfigManager.remove_backup_file st device_name backup_id true true).1).get_backup
      backup_id = none ∧
    hasFile (ConfigManager.remove_backup_file st device_name backup_id true true).1.files
      b.filename = false := by
  have hb' : (ConfigManager.loadedMeta st).backups.find?
      (fun r => r.id == backup_id) = some b := hb
  obtain ⟨pos, hpos⟩ := findIdx?_isSome_of_find? (fun r => r.id == backup_id)
    (ConfigManager.loadedMeta st).backups b hb'
  have hout : ConfigManager.remove_backup_file st device_name backup_id true true =
      ({ files := st.files.filter (fun e => e.1 != b.filename),
         metaFile := some ⟨(ConfigManager.loadedMeta st).backups.eraseIdx pos⟩ },
        .ok ()) := by
    simp [ConfigManager.remove_backup_file, load_backup_meta_eq, hb, fsRemoveFile, hfile,
      BackupMeta.remove_backup, hpos, ConfigManager.save_backup_meta]
  rw [hout]
  refine ⟨rfl, ?_, hasFile_removeAll _ _⟩
  simp only [loadedMeta_mk_some, BackupMeta.get_backup]
  exact find?_eraseIdx_of_unique _ _ pos huniq hpos

/-- Witness for C7 at a one-record catalog whose file is present. -/
theorem C7_remove_then_get_none_witness :
    exceptOk (ConfigManager.remove_backup_file
        ⟨[("20240101_120000_full_backup.tar.gz", [7])],
          some ⟨[⟨"20240101_120000", "20240101_120000_full_backup.tar.gz",
            "20240101_120000", "router1", none, "full", "luci", 1⟩]⟩⟩
        "router1" "20240101_120000" true true).2 = true ∧
    (ConfigManager.loadedMeta (ConfigManager.remove_backup_file
        ⟨[("20240101_120000_full_backup.tar.gz", [7])],
          some ⟨[⟨"20240101_120000", "20240101_120000_full_backup.tar.gz",
            "20240101_120000", "router1", none, "full", "luci", 1⟩]⟩⟩
        "router1" "20240101_120000" true true).1).get_backup "20240101_120000" = none ∧
    hasFile (ConfigManager.remove_backup_file
        ⟨[("20240101_120000_full_backup.tar.gz", [7])],
          some ⟨[⟨"20240101_120000", "20240101_120000_full_backup.tar.gz",
            "20240101_120000", "router1", none, "full", "luci", 1⟩]⟩⟩
        "router1" "20240101_120000" true true).1.files
      "20240101_120000_full_backup.tar.gz" = false :=
  C7_remove_then_get_none
    ⟨[("20240101_120000_full_backup.tar.gz", [7])],
      some ⟨[⟨"20240101_120000", "20240101_120000_full_backup.tar.gz",
        "20240101_120000", "router1", none, "full", "luci", 1⟩]⟩⟩
    "router1" "20240101_120000"
    ⟨"20240101_120000", "20240101_120000_full_backup.tar.gz",
      "20240101_120000", "router1", none, "full", "luci", 1⟩
    (by decide) (by decide) (by decide)

/-- C7 as stated is false: with two same-second records sharing an id,
the remove succeeds but the subsequent `get` still returns a record
rather than NotFound. -/
theorem C7_remove_then_get_counterexample :
    exceptOk (ConfigManager.remove_backup_file
        ⟨[("20240101_120000_full_backup.tar.gz", [7])],
          some ⟨[⟨"20240101_120000", "20240101_120000_full_backup.tar.gz",
            "20240101_120000", "router1", some "first", "full", "luci", 7⟩,
            ⟨"20240101_120000", "20240101_120000_full_backup.tar.gz",
            "20240101_120000", "router1", some "second", "full", "luci", 7⟩]⟩⟩
        "router1" "20240101_120000" true true).2 = true ∧
    (ConfigManager.loadedMeta (ConfigManager.remove_backup_file
        ⟨[("20240101_120000_full_backup.tar.gz", [7])],
          some ⟨[⟨"20240101_120000", "20240101_120000_full_backup.tar.gz",
            "20240101_120000", "router1", some "first", "full", "luci", 7⟩,
            ⟨"20240101_120000", "20240101_120000_full_backup.tar.gz",
            "20240101_120000", "router1", some "second", "full", "luci", 7⟩]⟩⟩
        "router1" "20240101_120000" true true).1).get_backup "20240101_120000" ≠
      none := by
  refine ⟨rfl, ?_⟩
  decide

/-- When every channel opens, the section loop issues exactly one
command per section, in order, and appends exactly the entries of the
sections whose command succeeds with non-empty output. -/
theorem runSections_eq (channel_session : Nat → Bool) (exec : String → commands.ExecResult)
    (h : ∀ i, channel_session i = true) :
    ∀ (l : List String) (i : Nat),
      commands.runSections channel_session exec l i =
        (l.map commands.sectionCommand, l.filterMap (commands.sectionEntry exec)) := by
  intro l
  induction l with
  | nil => intro i; rfl
  | cons name rest ih =>
    intro i
    simp only [commands.runSections, ih (i + 1), h i, if_true, List.map_cons,
      List.filterMap_cons]
    by_cases hc : ((exec (commands.sectionCommand name)).exit_status == 0 &&
        (exec (commands.sectionCommand name)).output != "") = true
    · simp [commands.sectionEntry, hc]
    · simp [commands.sectionEntry, hc]

/-- Every entry the section loop appends carries mode 0o644 and a size
equal to the byte length of its content. -/
theorem runSections_entry_props (channel_session : Nat → Bool)
    (exec : String → commands.ExecResult) :
    ∀ (l : List String) (i : Nat),
      ∀ e ∈ (commands.runSections channel_session exec l i).2,
        e.mode = 0o644 ∧ e.size = e.content.utf8ByteSize := by
  intro l
  induction l with
  | nil => intro i e he; simp [commands.runSections] at he
  | cons name rest ih =>
    intro i e he
    simp only [commands.runSections] at he
    rcases hch : channel_session i with - | -
    · rw [hch] at he
      simp only [Bool.false_eq_true, if_false] at he
      exact ih (i + 1) e he
    · rw [hch] at he
      simp only [if_true] at he
      by_cases hc : ((exec (commands.sectionCommand name)).exit_status == 0 &&
          (exec (commands.sectionCommand name)).output != "") = true
      · rw [if_pos hc] at he
        rcases List.mem_cons.mp he with rfl | he2
        · exact ⟨rfl, rfl⟩
        · exact ih (i + 1) e he2
      · rw [if_neg hc] at he
        exact ih (i + 1) e he

/-- C4: protocol-A collection issues one command per section of the
fixed ordered list and then reads the device identity file; sections
that fail or return nothing are skipped without stopping the rest; an
appended entry has mode 0o644 and size equal to its content's byte
length; the archive is finished and the run succeeds even when every
section is skipped. -/
theorem C4_ubus_collection (channel_session : Nat → Bool)
    (exec : String → commands.ExecResult) (h : ∀ i, channel_session i = true) :
    (commands.create_backup_ubus channel_session exec).commands =
      ["cat /etc/config/system", "cat /etc/config/wireless", "cat /etc/config/network",
        "cat /etc/config/dhcp", "cat /etc/config/firewall", "cat /etc/board.json"] ∧
    (commands.create_backup_ubus channel_session exec).entries =
      commands.config_files.filterMap (commands.sectionEntry exec) ++
        (commands.boardEntry exec).toList ∧
    (∀ e ∈ (commands.create_backup_ubus channel_session exec).entries,
        e.mode = 0o644 ∧ e.size = e.content.utf8ByteSize) ∧
    (commands.create_backup_ubus channel_session exec).finished = true ∧
    ((∀ name ∈ commands.config_files, commands.sectionEntry exec name = none) →
      (commands.create_backup_ubus channel_session exec).entries =
        (commands.boardEntry exec).toList) := by
  have hrun := runSections_eq channel_session exec h commands.config_files 0
  have hcmds : (commands.create_backup_ubus channel_session exec).commands =
      ["cat /etc/config/system", "cat /etc/config/wireless", "cat /etc/config/network",
        "cat /etc/config/dhcp", "cat /etc/config/firewall", "cat /etc/board.json"] := by
    simp only [commands.create_backup_ubus, hrun, h 5, if_true]
    by_cases hc : ((exec "cat /etc/board.json").exit_status == 0 &&
        (exec "cat /etc/board.json").output != "") = true
    · simp [hc, commands.config_files, commands.sectionCommand]
    · simp [hc, commands.config_files, commands.sectionCommand]
  have hentries : (commands.create_backup_ubus channel_session exec).entries =
      commands.config_files.filterMap (commands.sectionEntry exec) ++
        (commands.boardEntry exec).toList := by
    simp only [commands.create_backup_ubus, hrun, h 5, if_true]
    by_cases hc : ((exec "cat /etc/board.json").exit_status == 0 &&
        (exec "cat /etc/board.json").output != "") = true
    · simp [hc, commands.boardEntry]
    · simp [hc, commands.boardEntry]
  refine ⟨hcmds, hentries, ?_, ?_, ?_⟩
  · intro e he
    rw [hentries] at he
    rcases List.mem_append.mp he with hl | hr
    · have hl2 : e ∈ (commands.runSections channel_session exec commands.config_files 0).2 := by
        rw [hrun]
        exact hl
      exact runSections_entry_props channel_session exec commands.config_files 0 e hl2
    · rcases hb : commands.boardEntry exec with - | be
      · rw [hb] at hr; simp at hr
      · rw [hb] at hr
        simp only [Option.toList_some, List.mem_singleton] at hr
        subst hr
        revert hb
        simp only [commands.boardEntry]
        by_cases hc : ((exec "cat /etc/board.json").exit_status == 0 &&
            (exec "cat /etc/board.json").output != "") = true
        · rw [if_pos hc]
          intro hb
          obtain rfl := (Option.some.injEq _ _).mp hb
          exact ⟨rfl, rfl⟩
        · rw [if_neg hc]
          intro hb
          simp at hb
  · rfl
  · intro hskip
    rw [hentries, List.filterMap_eq_nil_iff.mpr hskip, List.nil_append]

/-- Witness for C4: all channels open, every command fails. -/
theorem C4_ubus_collection_witness :
    (commands.create_backup_ubus (fun _ => true) (fun _ => ⟨1, ""⟩)).commands =
      ["cat /etc/config/system", "cat /etc/config/wireless", "cat /etc/config/network",
        "cat /etc/config/dhcp", "cat /etc/config/firewall", "cat /etc/board.json"] ∧
    (commands.create_backup_ubus (fun _ => true) (fun _ => ⟨1, ""⟩)).entries =
      (commands.boardEntry (fun _ => ⟨1, ""⟩)).toList ∧
    (commands.create_backup_ubus (fun _ => true) (fun _ => ⟨1, ""⟩)).finished = true := by
  have h := C4_ubus_collection (fun _ => true) (fun _ => ⟨1, ""⟩) (fun _ => rfl)
  exact ⟨h.1, h.2.2.2.2 (by decide), h.2.2.2.1⟩

end Wrtcli
